import Mathlib

/-!
Verification of the Squash stream engine (squash/stream.c).

This file gives a shallow embedding of the stream state machine of
squash/stream.c: the stream record, the codec capability set (nullable
function pointers modelled as Option-valued fields), the buffering-adapter
fallback (external, modelled as a pair of supplied functions), and the
operation-escalation loop of squash_stream_process_internal, together with
theorems about it.

Modelling conventions:
- size_t arithmetic is Nat with explicit reduction mod 2 ^ 64 (wadd, wsub),
  so the unsigned wrap-around of the total_in / total_out updates is
  represented faithfully.
- The caller-supplied output pointer is an abstract OutPtr value: nullPtr
  (NULL), callerPtr a (a real buffer), or probePtr (the address of the
  engine's one-byte stack probe buffer output_sbb).
- The local variable res of squash_stream_process_internal is declared
  without an initializer in the C source; it is modelled as an
  Option SquashStatus that starts as none.  Reading it while it is none is
  undefined behavior in C, and the model then returns none for the whole
  call.
- Each call returns, besides the updated stream and the status, a trace of
  events recording which entry points were invoked with which raw result,
  which loop levels were entered, and whether the one-byte-probe check
  overrode the status.  The trace is observational only: it does not feed
  back into the computation.
-/

/-- Status codes exchanged with plugins (SquashStatus in the C source).
otherFailure stands for the open-ended set of codec-specific error codes
that the engine treats opaquely. -/
inductive SquashStatus where
  | ok
  | processing
  | endOfStream
  | bufferFull
  | invalidOperation
  | stateErr
  | otherFailure (code : Nat)
deriving DecidableEq, Repr

/-- Stream states (SquashStreamState), in declaration order; the C code
compares them numerically. -/
inductive SquashStreamState where
  | idle
  | running
  | flushing
  | finishing
  | finished
deriving DecidableEq, Repr

/-- Numeric value of a stream state, matching the C enum layout
(IDLE = 0 .. FINISHED = 4), used for the threshold comparisons. -/
def SquashStreamState.toNat : SquashStreamState → Nat
  | .idle => 0
  | .running => 1
  | .flushing => 2
  | .finishing => 3
  | .finished => 4

/-- Abstract output pointer: NULL, a caller buffer address, or the address
of the engine's one-byte probe buffer (output_sbb). -/
inductive OutPtr where
  | nullPtr
  | callerPtr (addr : Nat)
  | probePtr
deriving DecidableEq, Repr

/-- Stream direction (SquashStreamType). -/
inductive SquashStreamType where
  | compress
  | decompress
deriving DecidableEq, Repr

/-- The caller-visible stream record (_SquashStream), restricted to the
fields the engine reads or writes. -/
structure SquashStream where
  stream_type : SquashStreamType
  next_in : Nat
  avail_in : Nat
  total_in : Nat
  next_out : OutPtr
  avail_out : Nat
  total_out : Nat
  state : SquashStreamState
deriving DecidableEq, Repr

/-- Per-codec capability set (the nullable process_stream / flush_stream /
finish_stream function pointers of SquashCodecFuncs). -/
structure SquashCodecFuncs where
  process_stream : Option (SquashStream → SquashStream × SquashStatus)
  flush_stream : Option (SquashStream → SquashStream × SquashStatus)
  finish_stream : Option (SquashStream → SquashStream × SquashStatus)

/-- The external buffering adapter (squash_buffer_stream_process and
squash_buffer_stream_finish), supplied as parameters. -/
structure BufferImpl where
  buffer_stream_process : SquashStream → SquashStream × SquashStatus
  buffer_stream_finish : SquashStream → SquashStream × SquashStatus

/-- Observable events of one engine call. -/
inductive CallEvent where
  | levelEnter (n : Nat)
  | trivialOk
  | procCall (st : SquashStatus)
  | bufProcCall (st : SquashStatus)
  | flushCall (st : SquashStatus)
  | finishCall (st : SquashStatus)
  | bufFinishCall (st : SquashStatus)
  | probeOverride
deriving DecidableEq, Repr

/-- Result of one engine call: final stream, returned status, event trace. -/
structure RunResult where
  stream : SquashStream
  status : SquashStatus
  trace : List CallEvent
deriving DecidableEq, Repr

/-- 2 ^ 64, the modulus of size_t arithmetic. -/
def sizeW : Nat := 2 ^ 64

/-- size_t addition. -/
def wadd (a b : Nat) : Nat := (a + b) % sizeW

/-- size_t subtraction (wraps on underflow, as unsigned C subtraction). -/
def wsub (a b : Nat) : Nat := (a % sizeW + (sizeW - b % sizeW)) % sizeW

/-- squash_stream_init: a fresh stream is Idle with zero totals and null
cursors. -/
def squash_stream_init (stream_type : SquashStreamType) : SquashStream :=
  { stream_type := stream_type
    next_in := 0
    avail_in := 0
    total_in := 0
    next_out := OutPtr.nullPtr
    avail_out := 0
    total_out := 0
    state := SquashStreamState.idle }

/-- squash_stream_newa: the body of this constructor in squash/stream.c is
a bare return NULL. -/
def squash_stream_newa (codec : String) (stream_type : SquashStreamType)
    (keys : List String) (values : List String) : Option SquashStream :=
  none

/-- The switch mapping the entry state to the starting loop level
(current_operation). -/
def stateToOp : SquashStreamState → Nat
  | .idle => 0
  | .running => 0
  | .flushing => 1
  | .finishing => 2
  | .finished => 3

/-- The saved original output pointer (the local next_out of the C code):
set only when the caller's avail_out is zero. -/
def probeSaved (s : SquashStream) : Option OutPtr :=
  if s.avail_out = 0 then some s.next_out else none

/-- The stream as the loop sees it: when avail_out is zero the engine
substitutes the one-byte probe buffer. -/
def probeSubst (s : SquashStream) : SquashStream :=
  if s.avail_out = 0 then { s with avail_out := 1, next_out := OutPtr.probePtr }
  else s

/-- The guard used by the C code for both the probe check and the restore:
the saved pointer compared against NULL.  Note it is false when the
substitution happened but the caller's original pointer was NULL. -/
def svOf : Option OutPtr → Bool
  | some OutPtr.nullPtr => false
  | some _ => true
  | none => false

/-- Restore of the caller's output cursor after the loop (guarded by the
saved pointer being non-NULL, exactly as the C code). -/
def restoreOut (saved : Option OutPtr) (s : SquashStream) : SquashStream :=
  if svOf saved = true then
    { s with avail_out := 0,
             next_out := match saved with
               | some p => p
               | none => s.next_out }
  else s

/-- The unconditional totals update at the end of the call, in size_t
arithmetic. -/
def applyTotals (ai0 ao0 : Nat) (s : SquashStream) : SquashStream :=
  { s with total_in := wadd s.total_in (wsub ai0 s.avail_in),
           total_out := wadd s.total_out (wsub ao0 s.avail_out) }

/-- Finish-status normalization: plugins may return EndOfStream from the
finish function; the engine rewrites it to Ok. -/
def normalizeFinish (st : SquashStatus) : SquashStatus :=
  if st = SquashStatus.endOfStream then SquashStatus.ok else st

/-- One loop-body dispatch of squash_stream_process_internal: given the
current level, run the corresponding branch.  Returns the stream, the
(possibly still unassigned) status and the extended trace.  At the Flush
level with a different requested operation, the status is left untouched,
exactly as in the C source. -/
def levelBody (funcs : SquashCodecFuncs) (buf : BufferImpl)
    (operation cur : Nat) (s : SquashStream) (res : Option SquashStatus)
    (tr : List CallEvent) :
    SquashStream × Option SquashStatus × List CallEvent :=
  if cur = 0 then
    if s.avail_in = 0 ∧ s.state = SquashStreamState.idle then
      (s, some SquashStatus.ok, tr ++ [CallEvent.levelEnter 0, CallEvent.trivialOk])
    else
      match funcs.process_stream with
      | some f =>
        ((f s).1, some (f s).2, tr ++ [CallEvent.levelEnter 0, CallEvent.procCall (f s).2])
      | none =>
        ((buf.buffer_stream_process s).1, some (buf.buffer_stream_process s).2,
         tr ++ [CallEvent.levelEnter 0, CallEvent.bufProcCall (buf.buffer_stream_process s).2])
  else if cur = 1 then
    if cur = operation then
      match funcs.flush_stream with
      | some f =>
        ((f s).1, some (f s).2, tr ++ [CallEvent.levelEnter 1, CallEvent.flushCall (f s).2])
      | none =>
        (s, some SquashStatus.ok, tr ++ [CallEvent.levelEnter 1])
    else
      (s, res, tr ++ [CallEvent.levelEnter 1])
  else if cur = 2 then
    match funcs.finish_stream with
    | some f =>
      ((f s).1, some (normalizeFinish (f s).2),
       tr ++ [CallEvent.levelEnter 2, CallEvent.finishCall (f s).2])
    | none =>
      match funcs.process_stream with
      | none =>
        ((buf.buffer_stream_finish s).1,
         some (normalizeFinish (buf.buffer_stream_finish s).2),
         tr ++ [CallEvent.levelEnter 2, CallEvent.bufFinishCall (buf.buffer_stream_finish s).2])
      | some _ =>
        (s, some SquashStatus.invalidOperation, tr ++ [CallEvent.levelEnter 2])
  else
    (s, res, tr ++ [CallEvent.levelEnter cur])

/-- The probe check after each loop body: when the substitution is active
(saved pointer non-NULL) and the one-byte buffer has been consumed, the
status is overridden with BufferFull. -/
def probeStep (sv : Bool) (b : SquashStream × Option SquashStatus × List CallEvent) :
    SquashStream × Option SquashStatus × List CallEvent :=
  if sv = true ∧ b.1.avail_out = 0 then
    (b.1, some SquashStatus.bufferFull, b.2.2 ++ [CallEvent.probeOverride])
  else b

/-- State written when a level reports Processing (the switch at the top of
the interpretation step). -/
def setStateFor (cur : Nat) (s : SquashStream) : SquashStream :=
  if cur = 0 then { s with state := SquashStreamState.running }
  else if cur = 1 then { s with state := SquashStreamState.flushing }
  else if cur = 2 then { s with state := SquashStreamState.finishing }
  else s

/-- Interpretation of the (possibly still unassigned) status at the end of
one loop iteration: Processing records the in-progress state of the level
and stops; EndOfStream, or Ok at the Finish level, records Finished and
stops; Ok advances to the next level through the continuation; anything
else stops with the state last recorded.  A none status models the
undefined behavior of interpreting the status variable before any
assignment to it, and makes the whole call return none. -/
def interpretStep
    (rec : Nat → SquashStream → Option SquashStatus → List CallEvent → Option RunResult)
    (cur : Nat) (b : SquashStream × Option SquashStatus × List CallEvent) :
    Option RunResult :=
  match b.2.1 with
  | none => none
  | some r =>
    if r = SquashStatus.processing then
      some ⟨setStateFor cur b.1, r, b.2.2⟩
    else if r = SquashStatus.endOfStream ∨ (cur = 2 ∧ r = SquashStatus.ok) then
      some ⟨{ b.1 with state := SquashStreamState.finished }, r, b.2.2⟩
    else if r = SquashStatus.ok then
      rec (cur + 1) { b.1 with state := SquashStreamState.idle }
        (some SquashStatus.ok) b.2.2
    else
      some ⟨b.1, r, b.2.2⟩

/-- One iteration of the escalation loop of squash_stream_process_internal:
check the loop condition, run the body and the probe check, interpret the
status, and either return or continue through the supplied continuation. -/
def runLoopIter (funcs : SquashCodecFuncs) (buf : BufferImpl) (operation : Nat)
    (sv : Bool)
    (rec : Nat → SquashStream → Option SquashStatus → List CallEvent → Option RunResult)
    (cur : Nat) (s : SquashStream) (res : Option SquashStatus)
    (tr : List CallEvent) : Option RunResult :=
  if cur ≤ operation then
    interpretStep rec cur (probeStep sv (levelBody funcs buf operation cur s res tr))
  else
    match res with
    | none => none
    | some r => some ⟨s, r, tr⟩

/-- The escalation loop: fuel bounds the number of iterations (the caller
passes operation + 2, which is always enough because each iteration either
returns or increments cur). -/
def runLoop (funcs : SquashCodecFuncs) (buf : BufferImpl) (operation : Nat)
    (sv : Bool) (fuel cur : Nat) (s : SquashStream) (res : Option SquashStatus)
    (tr : List CallEvent) : Option RunResult :=
  match fuel with
  | 0 => none
  | fuel' + 1 =>
    runLoopIter funcs buf operation sv (runLoop funcs buf operation sv fuel')
      cur s res tr

/-- Post-processing after the loop: restore the output cursor when the
probe substitution is recorded as active, then update the totals. -/
def finishRun (ai0 ao0 : Nat) (saved : Option OutPtr) :
    Option RunResult → Option RunResult
  | none => none
  | some out =>
    some ⟨applyTotals ai0 ao0 (restoreOut saved out.stream), out.status, out.trace⟩

/-- squash_stream_process_internal: entry checks, probe substitution,
escalation loop, restore, totals. -/
def squash_stream_process_internal (funcs : SquashCodecFuncs) (buf : BufferImpl)
    (stream : SquashStream) (operation : Nat) : Option RunResult :=
  if operation = 1 ∧ funcs.flush_stream.isNone = true then
    some ⟨stream, SquashStatus.invalidOperation, []⟩
  else if (operation = 0 ∧ 1 < stream.state.toNat) ∨
      (operation = 1 ∧ 2 < stream.state.toNat) ∨
      (operation = 2 ∧ 3 < stream.state.toNat) then
    some ⟨stream, SquashStatus.stateErr, []⟩
  else if operation < stateToOp stream.state then
    some ⟨stream, SquashStatus.stateErr, []⟩
  else
    finishRun stream.avail_in stream.avail_out (probeSaved stream)
      (runLoop funcs buf operation (svOf (probeSaved stream)) (operation + 2)
        (stateToOp stream.state) (probeSubst stream) none [])

/-- squash_stream_process. -/
def squash_stream_process (funcs : SquashCodecFuncs) (buf : BufferImpl)
    (stream : SquashStream) : Option RunResult :=
  squash_stream_process_internal funcs buf stream 0

/-- squash_stream_flush. -/
def squash_stream_flush (funcs : SquashCodecFuncs) (buf : BufferImpl)
    (stream : SquashStream) : Option RunResult :=
  squash_stream_process_internal funcs buf stream 1

/-- squash_stream_finish. -/
def squash_stream_finish (funcs : SquashCodecFuncs) (buf : BufferImpl)
    (stream : SquashStream) : Option RunResult :=
  squash_stream_process_internal funcs buf stream 2

/-- Codec entry points receive the stream pointer, but the state field is
engine-owned ("managed internally by Squash and should not be modified by
consumers or plugins").  This predicate captures that contract. -/
def PreservesState (f : SquashStream → SquashStream × SquashStatus) : Prop :=
  ∀ s, ((f s).1).state = s.state

/-- Well-behavedness of a capability set and of the buffering adapter:
every supplied entry point leaves the engine-owned state field alone. -/
structure WellBehavedSet (funcs : SquashCodecFuncs) (buf : BufferImpl) : Prop where
  proc : ∀ f, funcs.process_stream = some f → PreservesState f
  flush : ∀ f, funcs.flush_stream = some f → PreservesState f
  fin : ∀ f, funcs.finish_stream = some f → PreservesState f
  bufProc : PreservesState buf.buffer_stream_process
  bufFin : PreservesState buf.buffer_stream_finish

/-- Caller cursor rewrites between calls: the caller owns next_in, avail_in,
next_out and avail_out and may set them to anything before a call. -/
def cursorSet (s : SquashStream) (ni ai : Nat) (no : OutPtr) (ao : Nat) : SquashStream :=
  { s with next_in := ni, avail_in := ai, next_out := no, avail_out := ao }

/-- Streams reachable by driving the engine: freshly initialized, or the
result of one more public driver call (operation 0, 1 or 2) after the
caller rewrote the cursors. -/
inductive Reachable (funcs : SquashCodecFuncs) (buf : BufferImpl) : SquashStream → Prop where
  | init (t : SquashStreamType) : Reachable funcs buf (squash_stream_init t)
  | step (s : SquashStream) (ni ai ao : Nat) (no : OutPtr) (op : Nat) (r : RunResult) :
      Reachable funcs buf s → op ≤ 2 →
      squash_stream_process_internal funcs buf (cursorSet s ni ai no ao) op = some r →
      Reachable funcs buf r.stream

/-! Concrete fixtures used by the closed theorems and witnesses. -/

/-- Trivial buffering adapter: leaves the stream alone and reports Ok. -/
def trivBuf : BufferImpl :=
  { buffer_stream_process := fun s => (s, SquashStatus.ok),
    buffer_stream_finish := fun s => (s, SquashStatus.ok) }

/-- A codec whose process entry point does nothing and reports Ok. -/
def noopCodec : SquashCodecFuncs :=
  { process_stream := some (fun s => (s, SquashStatus.ok)),
    flush_stream := none,
    finish_stream := none }

/-- A codec whose process entry point consumes one input byte and writes one
output byte per call. -/
def oneByteCodec : SquashCodecFuncs :=
  { process_stream := some (fun s =>
      ({ s with avail_in := s.avail_in - 1, avail_out := s.avail_out - 1 },
       SquashStatus.ok)),
    flush_stream := none,
    finish_stream := none }

/-- Fresh compress stream with one input byte and a two-byte output buffer. -/
def c1s0 : SquashStream :=
  { squash_stream_init SquashStreamType.compress with
      avail_in := 1, avail_out := 2, next_out := OutPtr.callerPtr 0 }

/-- First call of the totals scenario. -/
def c1first : Option RunResult := squash_stream_process oneByteCodec trivBuf c1s0

/-- Second call of the totals scenario: the caller then presents a NULL,
zero-capacity output cursor. -/
def c1second : Option RunResult :=
  c1first.bind (fun r =>
    squash_stream_process oneByteCodec trivBuf
      { r.stream with avail_out := 0, next_out := OutPtr.nullPtr })

/-- A codec whose process entry point consumes all input and writes one
output byte (into the probe buffer when the probe substitution is active). -/
def probeWriterCodec : SquashCodecFuncs :=
  { process_stream := some (fun s =>
      ({ s with avail_in := 0, avail_out := s.avail_out - 1 }, SquashStatus.ok)),
    flush_stream := none,
    finish_stream := none }

/-- Stream with one input byte and a NULL, zero-capacity output cursor. -/
def c2s0 : SquashStream :=
  { squash_stream_init SquashStreamType.compress with avail_in := 1 }

/-- A codec with only a process capability (no flush, no finish). -/
def processOnlyCodec : SquashCodecFuncs :=
  { process_stream := some (fun s => (s, SquashStatus.ok)),
    flush_stream := none,
    finish_stream := none }

/-- Idle stream with empty input and a five-byte output buffer. -/
def c3s : SquashStream :=
  { squash_stream_init SquashStreamType.compress with
      avail_out := 5, next_out := OutPtr.callerPtr 0 }

/-- A fully non-streaming codec: no process, flush or finish capability
(such codecs are driven through the buffering adapter). -/
def adapterOnlyCodec : SquashCodecFuncs :=
  { process_stream := none, flush_stream := none, finish_stream := none }

/-- A stream already at the Finished state. -/
def sFin : SquashStream :=
  { squash_stream_init SquashStreamType.compress with state := SquashStreamState.finished }

/-- A codec whose finish entry point writes one byte and returns
EndOfStream. -/
def eosWriterCodec : SquashCodecFuncs :=
  { process_stream := some (fun s => (s, SquashStatus.ok)),
    flush_stream := none,
    finish_stream := some (fun s =>
      ({ s with avail_out := s.avail_out - 1 }, SquashStatus.endOfStream)) }

/-- Finishing-state stream with a non-NULL zero-capacity output cursor. -/
def c8ce : SquashStream :=
  { squash_stream_init SquashStreamType.compress with
      state := SquashStreamState.finishing, next_out := OutPtr.callerPtr 7 }

/-- A codec whose finish entry point writes nothing and returns
EndOfStream. -/
def eosCodec : SquashCodecFuncs :=
  { process_stream := some (fun s => (s, SquashStatus.ok)),
    flush_stream := none,
    finish_stream := some (fun s => (s, SquashStatus.endOfStream)) }

/-- Finishing-state stream with a one-byte output buffer. -/
def c8w : SquashStream :=
  { squash_stream_init SquashStreamType.compress with
      state := SquashStreamState.finishing, avail_out := 1,
      next_out := OutPtr.callerPtr 0 }

/-- The result of the finish call on c8w with eosCodec. -/
def c8lit : RunResult :=
  ⟨{ c8w with state := SquashStreamState.finished }, SquashStatus.ok,
   [CallEvent.levelEnter 2, CallEvent.finishCall SquashStatus.endOfStream]⟩

/-- A codec whose flush entry point reports Processing (so the stream state
becomes Flushing). -/
def flushingCodec : SquashCodecFuncs :=
  { process_stream := some (fun s => (s, SquashStatus.ok)),
    flush_stream := some (fun s => (s, SquashStatus.processing)),
    finish_stream := some (fun s => (s, SquashStatus.ok)) }

/-- Idle stream with a four-byte output buffer. -/
def c9s0 : SquashStream :=
  { squash_stream_init SquashStreamType.compress with
      avail_out := 4, next_out := OutPtr.callerPtr 0 }

/-- Result of a flush call on c9s0 with flushingCodec: stream now Flushing. -/
def c9r1 : RunResult :=
  ⟨{ c9s0 with state := SquashStreamState.flushing }, SquashStatus.processing,
   [CallEvent.levelEnter 0, CallEvent.trivialOk, CallEvent.levelEnter 1,
    CallEvent.flushCall SquashStatus.processing]⟩

/-- A codec with process and finish capabilities but no flush capability. -/
def c4funcs : SquashCodecFuncs :=
  { process_stream := some (fun s => (s, SquashStatus.ok)),
    flush_stream := none,
    finish_stream := some (fun s => (s, SquashStatus.ok)) }

/-- The result of a finish call on a fresh compress stream with c4funcs. -/
def c4lit : RunResult :=
  ⟨{ squash_stream_init SquashStreamType.compress with
       next_out := OutPtr.probePtr, avail_out := 1, total_out := sizeW - 1,
       state := SquashStreamState.finished },
   SquashStatus.ok,
   [CallEvent.levelEnter 0, CallEvent.trivialOk, CallEvent.levelEnter 1,
    CallEvent.levelEnter 2, CallEvent.finishCall SquashStatus.ok]⟩

/-! Claim theorems (with their supporting lemmas). -/

/-- Claim C10: squash_stream_newa returns NULL (the failure result) for
every input, including a resolvable codec name, a valid stream type and
well-formed NULL-terminated key/value option arrays; it never constructs a
stream. -/
theorem C10_newa_always_null (codec : String) (t : SquashStreamType)
    (keys values : List String) :
    squash_stream_newa codec t keys values = none := rfl

/-- Claim C7: for every stream whose codec capability set has no flush
entry point, every flush call returns InvalidOperation regardless of the
stream state, leaves the stream (state, cursors, totals) unchanged, and
invokes no codec capability (the trace is empty). -/
theorem C7_flush_without_capability (funcs : SquashCodecFuncs)
    (buf : BufferImpl) (s : SquashStream) (h : funcs.flush_stream = none) :
    squash_stream_flush funcs buf s =
      some ⟨s, SquashStatus.invalidOperation, []⟩ := by
  unfold squash_stream_flush squash_stream_process_internal
  simp [h]

/-- Witness for C7 at a concrete codec and stream. -/
theorem C7_flush_without_capability_witness :
    squash_stream_flush adapterOnlyCodec trivBuf c9s0 =
      some ⟨c9s0, SquashStatus.invalidOperation, []⟩ :=
  C7_flush_without_capability adapterOnlyCodec trivBuf c9s0 rfl

/-- Claim C5 (code bug): on a freshly created stream, a process call with
zero available input does return Ok immediately without invoking any codec
capability and leaves total_in at 0, but total_out does not remain 0: the
restore of the probe substitution is guarded by the saved output pointer,
which is NULL on a fresh stream, so avail_out is left at 1 and the size_t
update total_out += (0 - 1) wraps to 2 ^ 64 - 1. -/
theorem C5_zero_input_totals_bug :
    (squash_stream_process noopCodec trivBuf
        (squash_stream_init SquashStreamType.compress)).map
        (fun r => (r.status, r.trace, r.stream.total_in, r.stream.total_out)) =
      some (SquashStatus.ok, [CallEvent.levelEnter 0, CallEvent.trivialOk],
            0, sizeW - 1) ∧
    sizeW - 1 ≠ 0 := ⟨rfl, by decide⟩

/-- Claim C1 (code bug): totals can decrease, and the increment does not
equal the caller-visible cursor decrease.  First call: one byte consumed
and produced, total_out = 1.  The caller then presents a NULL output
pointer with zero capacity; the probe substitution is not undone (NULL
guard), avail_out comes
back as 1, and total_out += (0 - 1) in size_t arithmetic drops total_out
from 1 to 0. -/
theorem C1_totals_decrease_bug :
    c1first.map (fun r => r.stream.total_out) = some 1 ∧
    c1second.map (fun r => (r.stream.total_out, r.stream.avail_out)) =
      some (0, 1) := ⟨rfl, rfl⟩

/-- Claim C2 (code bug): with zero output capacity and a NULL original
output pointer, the codec writes into the substituted probe buffer, yet the
call returns Ok (not BufferFull) and the caller's output cursor is not
restored: next_out comes back as the probe pointer.  The probe check and the
restore are both guarded by the saved pointer being non-NULL. -/
theorem C2_probe_not_restored_bug :
    (squash_stream_process probeWriterCodec trivBuf c2s0).map
        (fun r => (r.status, r.stream.next_out, r.stream.avail_out)) =
      some (SquashStatus.ok, OutPtr.probePtr, 0) ∧
    SquashStatus.ok ≠ SquashStatus.bufferFull ∧
    OutPtr.probePtr ≠ c2s0.next_out := ⟨rfl, by decide, by decide⟩

/-- Claim C9 (code bug): a flush call whose codec flush reports Processing
leaves the stream Flushing; the subsequent finish call starts the loop at
the Flush level with the requested operation Finish, assigns nothing to the
status variable in that iteration, and then interprets it: the model
returns none, standing for the read of the uninitialized local res. -/
theorem C9_uninitialized_status_bug :
    squash_stream_flush flushingCodec trivBuf c9s0 = some c9r1 ∧
    c9r1.stream.state = SquashStreamState.flushing ∧
    squash_stream_finish flushingCodec trivBuf c9r1.stream = none :=
  ⟨rfl, rfl, rfl⟩

/-- Counterexample to claim C6 as stated: a flush call on a Finished stream
whose codec has no flush capability returns InvalidOperation, not the State
error, because the flush-capability check precedes the state check. -/
theorem C6_counterexample :
    squash_stream_flush adapterOnlyCodec trivBuf sFin =
      some ⟨sFin, SquashStatus.invalidOperation, []⟩ ∧
    SquashStatus.invalidOperation ≠ SquashStatus.stateErr := ⟨rfl, by decide⟩

/-- Claim C6 as amended: a Finished stream rejects every process or finish
call with the State error; a flush call is rejected with the State error
when the codec has a flush capability and with InvalidOperation otherwise;
in all cases the stream (state, cursors, totals) is returned unchanged and
no codec capability is invoked. -/
theorem C6_finished_rejects (funcs : SquashCodecFuncs) (buf : BufferImpl)
    (s : SquashStream) (h : s.state = SquashStreamState.finished) :
    squash_stream_process funcs buf s = some ⟨s, SquashStatus.stateErr, []⟩ ∧
    squash_stream_finish funcs buf s = some ⟨s, SquashStatus.stateErr, []⟩ ∧
    squash_stream_flush funcs buf s =
      some ⟨s, if funcs.flush_stream.isNone = true then
                 SquashStatus.invalidOperation
               else SquashStatus.stateErr, []⟩ := by
  refine ⟨?_, ?_, ?_⟩
  · unfold squash_stream_process squash_stream_process_internal
    simp [h, SquashStreamState.toNat]
  · unfold squash_stream_finish squash_stream_process_internal
    simp [h, SquashStreamState.toNat]
  · unfold squash_stream_flush squash_stream_process_internal
    cases hf : funcs.flush_stream <;>
      simp [h, hf, SquashStreamState.toNat]

/-- Witness for C6 at a concrete codec and Finished stream. -/
theorem C6_finished_rejects_witness :
    squash_stream_process adapterOnlyCodec trivBuf sFin =
      some ⟨sFin, SquashStatus.stateErr, []⟩ ∧
    squash_stream_finish adapterOnlyCodec trivBuf sFin =
      some ⟨sFin, SquashStatus.stateErr, []⟩ ∧
    squash_stream_flush adapterOnlyCodec trivBuf sFin =
      some ⟨sFin, if adapterOnlyCodec.flush_stream.isNone = true then
                    SquashStatus.invalidOperation
                  else SquashStatus.stateErr, []⟩ :=
  C6_finished_rejects adapterOnlyCodec trivBuf sFin rfl

/-- Counterexample to claim C3 as stated: a codec with a process capability
but neither flush nor finish gets InvalidOperation from a finish call; the
buffering-adapter finish entry point is not invoked (no bufFinishCall event
appears in the trace). -/
theorem C3_counterexample :
    squash_stream_finish processOnlyCodec trivBuf c3s =
      some ⟨c3s, SquashStatus.invalidOperation,
            [CallEvent.levelEnter 0, CallEvent.trivialOk,
             CallEvent.levelEnter 1, CallEvent.levelEnter 2]⟩ ∧
    SquashStatus.invalidOperation ≠ SquashStatus.ok := ⟨rfl, by decide⟩

/-- restoreOut does not touch the state field. -/
theorem restoreOut_state (saved : Option OutPtr) (s : SquashStream) :
    (restoreOut saved s).state = s.state := by
  unfold restoreOut; split <;> rfl

/-- applyTotals does not touch the state field. -/
theorem applyTotals_state (ai0 ao0 : Nat) (s : SquashStream) :
    (applyTotals ai0 ao0 s).state = s.state := rfl

/-- A successful finishRun preserves the loop result's status, trace and
state. -/
theorem finishRun_some {ai0 ao0 : Nat} {saved : Option OutPtr}
    {o : Option RunResult} {r : RunResult} (h : finishRun ai0 ao0 saved o = some r) :
    ∃ out, o = some out ∧ r.status = out.status ∧ r.trace = out.trace ∧
      r.stream.state = out.stream.state := by
  cases o with
  | none => simp [finishRun] at h
  | some out =>
    refine ⟨out, rfl, ?_⟩
    have hr : r = ⟨applyTotals ai0 ao0 (restoreOut saved out.stream), out.status, out.trace⟩ := by
      simpa [finishRun] using h.symm
    subst hr
    exact ⟨rfl, rfl, by rw [applyTotals_state, restoreOut_state]⟩

/-- Unfolding equation of the loop at positive fuel. -/
theorem runLoop_succ (funcs : SquashCodecFuncs) (buf : BufferImpl)
    (operation : Nat) (sv : Bool) (n cur : Nat) (s : SquashStream)
    (res : Option SquashStatus) (tr : List CallEvent) :
    runLoop funcs buf operation sv (n + 1) cur s res tr =
      runLoopIter funcs buf operation sv (runLoop funcs buf operation sv n)
        cur s res tr := rfl

/-- The loop body only appends to the trace. -/
theorem levelBody_trace_mono (funcs : SquashCodecFuncs) (buf : BufferImpl)
    (operation cur : Nat) (s : SquashStream) (res : Option SquashStatus)
    (tr : List CallEvent) :
    ∃ tl, (levelBody funcs buf operation cur s res tr).2.2 = tr ++ tl := by
  unfold levelBody
  repeat' split
  all_goals exact ⟨_, rfl⟩

/-- The probe check only appends to the trace. -/
theorem probeStep_trace_mono (sv : Bool)
    (b : SquashStream × Option SquashStatus × List CallEvent) :
    ∃ tl, (probeStep sv b).2.2 = b.2.2 ++ tl := by
  unfold probeStep
  split
  · exact ⟨_, rfl⟩
  · exact ⟨[], (List.append_nil _).symm⟩

/-- One iteration (body plus probe check) only appends to the trace. -/
theorem stepTrace_mono (funcs : SquashCodecFuncs) (buf : BufferImpl)
    (operation cur : Nat) (sv : Bool) (s : SquashStream)
    (res : Option SquashStatus) (tr : List CallEvent) :
    ∃ tl, (probeStep sv (levelBody funcs buf operation cur s res tr)).2.2 = tr ++ tl := by
  obtain ⟨t1, h1⟩ := probeStep_trace_mono sv (levelBody funcs buf operation cur s res tr)
  obtain ⟨t2, h2⟩ := levelBody_trace_mono funcs buf operation cur s res tr
  exact ⟨t2 ++ t1, by rw [h1, h2, List.append_assoc]⟩

/-- The loop only appends to the trace: every event already present in the
accumulator is present in the result. -/
theorem runLoop_trace_mono (funcs : SquashCodecFuncs) (buf : BufferImpl)
    (operation : Nat) (sv : Bool) :
    ∀ fuel cur s res tr out, runLoop funcs buf operation sv fuel cur s res tr = some out →
      ∀ e, e ∈ tr → e ∈ out.trace := by
  intro fuel
  induction fuel with
  | zero => intro cur s res tr out h; simp [runLoop] at h
  | succ n ih =>
    intro cur s res tr out h e he
    rw [runLoop_succ] at h
    unfold runLoopIter at h
    by_cases hcle : cur ≤ operation
    · rw [if_pos hcle] at h
      rcases heq : probeStep sv (levelBody funcs buf operation cur s res tr) with ⟨s1, resOpt, tr2⟩
      rw [heq] at h
      obtain ⟨tl, htl⟩ := stepTrace_mono funcs buf operation cur sv s res tr
      have htr2 : tr2 = tr ++ tl := by rw [heq] at htl; exact htl
      have he2 : e ∈ tr2 := by rw [htr2]; exact List.mem_append_left _ he
      unfold interpretStep at h
      cases resOpt with
      | none => simp at h
      | some r =>
        simp only at h
        split at h
        · cases h; exact he2
        · split at h
          · cases h; exact he2
          · split at h
            · exact ih _ _ _ _ _ h e he2
            · cases h; exact he2
    · rw [if_neg hcle] at h
      cases res with
      | none => simp at h
      | some r => cases h; exact he

/-- Every iteration records its level in the trace. -/
theorem levelBody_levelEnter_self (funcs : SquashCodecFuncs) (buf : BufferImpl)
    (operation cur : Nat) (s : SquashStream) (res : Option SquashStatus)
    (tr : List CallEvent) :
    CallEvent.levelEnter cur ∈ (levelBody funcs buf operation cur s res tr).2.2 := by
  unfold levelBody
  repeat' split
  all_goals simp_all

/-- The probe check preserves trace membership. -/
theorem probeStep_mem (sv : Bool)
    (b : SquashStream × Option SquashStatus × List CallEvent) (e : CallEvent)
    (he : e ∈ b.2.2) : e ∈ (probeStep sv b).2.2 := by
  obtain ⟨tl, htl⟩ := probeStep_trace_mono sv b
  rw [htl]
  exact List.mem_append_left _ he

/-- A loop run that starts within the loop condition records its starting
level in the trace. -/
theorem runLoop_levelEnter_self (funcs : SquashCodecFuncs) (buf : BufferImpl)
    (operation : Nat) (sv : Bool) (fuel cur : Nat) (s : SquashStream)
    (res : Option SquashStatus) (tr : List CallEvent) (out : RunResult)
    (hcle : cur ≤ operation)
    (h : runLoop funcs buf operation sv fuel cur s res tr = some out) :
    CallEvent.levelEnter cur ∈ out.trace := by
  cases fuel with
  | zero => simp [runLoop] at h
  | succ n =>
    rw [runLoop_succ] at h
    unfold runLoopIter at h
    rw [if_pos hcle] at h
    rcases heq : probeStep sv (levelBody funcs buf operation cur s res tr) with ⟨s1, resOpt, tr2⟩
    rw [heq] at h
    have hmem : CallEvent.levelEnter cur ∈ tr2 := by
      have := probeStep_mem sv (levelBody funcs buf operation cur s res tr)
        (CallEvent.levelEnter cur)
        (levelBody_levelEnter_self funcs buf operation cur s res tr)
      rw [heq] at this
      exact this
    unfold interpretStep at h
    cases resOpt with
    | none => simp at h
    | some r =>
      simp only at h
      split at h
      · cases h; exact hmem
      · split at h
        · cases h; exact hmem
        · split at h
          · exact runLoop_trace_mono funcs buf operation sv _ _ _ _ _ _ h _ hmem
          · cases h; exact hmem

/-- The loop body records no level below its own. -/
theorem levelBody_levelEnter_tail (funcs : SquashCodecFuncs) (buf : BufferImpl)
    (operation cur : Nat) (s : SquashStream) (res : Option SquashStatus)
    (tr : List CallEvent) (n : Nat)
    (h : CallEvent.levelEnter n ∈ (levelBody funcs buf operation cur s res tr).2.2) :
    CallEvent.levelEnter n ∈ tr ∨ n = cur := by
  unfold levelBody at h
  repeat' split at h
  all_goals simp_all

/-- The probe check adds no levelEnter event. -/
theorem probeStep_levelEnter (sv : Bool)
    (b : SquashStream × Option SquashStatus × List CallEvent) (n : Nat)
    (h : CallEvent.levelEnter n ∈ (probeStep sv b).2.2) :
    CallEvent.levelEnter n ∈ b.2.2 := by
  unfold probeStep at h
  split at h
  · simp_all
  · exact h

/-- Levels recorded by the loop are at least the starting level. -/
theorem runLoop_levelEnter_ge (funcs : SquashCodecFuncs) (buf : BufferImpl)
    (operation : Nat) (sv : Bool) :
    ∀ fuel cur s res tr out, runLoop funcs buf operation sv fuel cur s res tr = some out →
      ∀ n, CallEvent.levelEnter n ∈ out.trace →
        CallEvent.levelEnter n ∈ tr ∨ cur ≤ n := by
  intro fuel
  induction fuel with
  | zero => intro cur s res tr out h; simp [runLoop] at h
  | succ m ih =>
    intro cur s res tr out h n hn
    rw [runLoop_succ] at h
    unfold runLoopIter at h
    by_cases hcle : cur ≤ operation
    · rw [if_pos hcle] at h
      rcases heq : probeStep sv (levelBody funcs buf operation cur s res tr) with ⟨s1, resOpt, tr2⟩
      rw [heq] at h
      have htr2 : CallEvent.levelEnter n ∈ tr2 →
          CallEvent.levelEnter n ∈ tr ∨ cur ≤ n := by
        intro hmem
        have h1 : CallEvent.levelEnter n ∈
            (probeStep sv (levelBody funcs buf operation cur s res tr)).2.2 := by
          rw [heq]; exact hmem
        have h2 := probeStep_levelEnter sv _ n h1
        rcases levelBody_levelEnter_tail funcs buf operation cur s res tr n h2 with h3 | h3
        · exact Or.inl h3
        · exact Or.inr (Nat.le_of_eq h3.symm)
      unfold interpretStep at h
      cases resOpt with
      | none => simp at h
      | some r =>
        simp only at h
        split at h
        · cases h; exact htr2 hn
        · split at h
          · cases h; exact htr2 hn
          · split at h
            · rcases ih _ _ _ _ _ h n hn with h4 | h4
              · rcases htr2 h4 with h5 | h5
                · exact Or.inl h5
                · exact Or.inr h5
              · exact Or.inr (Nat.le_of_succ_le h4)
            · cases h; exact htr2 hn
    · rw [if_neg hcle] at h
      cases res with
      | none => simp at h
      | some r => cases h; exact Or.inl hn

/-- If the probe check produced an Ok status, it did not fire: the guard is
false for the resulting stream. -/
theorem probeStep_ok_not_fired {sv : Bool}
    {b : SquashStream × Option SquashStatus × List CallEvent}
    {s1 : SquashStream} {tr2 : List CallEvent}
    (heq : probeStep sv b = (s1, some SquashStatus.ok, tr2)) :
    ¬(sv = true ∧ s1.avail_out = 0) := by
  unfold probeStep at heq
  split at heq
  · simp_all
  · rename_i hcond
    cases heq
    exact hcond

/-- With no flush capability the loop body records no flushCall event. -/
theorem levelBody_no_flushCall (funcs : SquashCodecFuncs) (buf : BufferImpl)
    (operation cur : Nat) (s : SquashStream) (res : Option SquashStatus)
    (tr : List CallEvent) (st : SquashStatus)
    (hfl : funcs.flush_stream = none)
    (h : CallEvent.flushCall st ∈ (levelBody funcs buf operation cur s res tr).2.2) :
    CallEvent.flushCall st ∈ tr := by
  unfold levelBody at h
  repeat' split at h
  all_goals simp_all

/-- The probe check records no flushCall event. -/
theorem probeStep_no_flushCall (sv : Bool)
    (b : SquashStream × Option SquashStatus × List CallEvent) (st : SquashStatus)
    (h : CallEvent.flushCall st ∈ (probeStep sv b).2.2) :
    CallEvent.flushCall st ∈ b.2.2 := by
  unfold probeStep at h
  split at h
  · simp_all
  · exact h

/-- With no flush capability the loop never invokes a flush entry point. -/
theorem runLoop_no_flushCall (funcs : SquashCodecFuncs) (buf : BufferImpl)
    (operation : Nat) (sv : Bool) (hfl : funcs.flush_stream = none) :
    ∀ fuel cur s res tr out, runLoop funcs buf operation sv fuel cur s res tr = some out →
      ∀ st, CallEvent.flushCall st ∈ out.trace → CallEvent.flushCall st ∈ tr := by
  intro fuel
  induction fuel with
  | zero => intro cur s res tr out h; simp [runLoop] at h
  | succ m ih =>
    intro cur s res tr out h st hst
    rw [runLoop_succ] at h
    unfold runLoopIter at h
    by_cases hcle : cur ≤ operation
    · rw [if_pos hcle] at h
      rcases heq : probeStep sv (levelBody funcs buf operation cur s res tr) with ⟨s1, resOpt, tr2⟩
      rw [heq] at h
      have htr2 : CallEvent.flushCall st ∈ tr2 → CallEvent.flushCall st ∈ tr := by
        intro hm
        have h1 : CallEvent.flushCall st ∈
            (probeStep sv (levelBody funcs buf operation cur s res tr)).2.2 := by
          rw [heq]; exact hm
        exact levelBody_no_flushCall funcs buf operation cur s res tr st hfl
          (probeStep_no_flushCall sv _ st h1)
      unfold interpretStep at h
      cases resOpt with
      | none => simp at h
      | some r =>
        simp only at h
        split at h
        · cases h; exact htr2 hst
        · split at h
          · cases h; exact htr2 hst
          · split at h
            · exact htr2 (ih _ _ _ _ _ h st hst)
            · cases h; exact htr2 hst
    · rw [if_neg hcle] at h
      cases res with
      | none => simp at h
      | some r => cases h; exact hst

/-- Core of claim C4: in a Finish request on a codec with no flush
capability, whenever the loop visits the Flush level with the carried Ok
status, it advances and visits the Finish level. -/
theorem runLoop_flush_skip (funcs : SquashCodecFuncs) (buf : BufferImpl)
    (sv : Bool) (hfl : funcs.flush_stream = none) :
    ∀ fuel cur s res tr out,
      runLoop funcs buf 2 sv fuel cur s res tr = some out →
      (cur = 1 → res = some SquashStatus.ok ∧ ¬(sv = true ∧ s.avail_out = 0)) →
      CallEvent.levelEnter 1 ∈ out.trace →
      CallEvent.levelEnter 1 ∈ tr ∨ CallEvent.levelEnter 2 ∈ out.trace := by
  intro fuel
  induction fuel with
  | zero => intro cur s res tr out h; simp [runLoop] at h
  | succ m ih =>
    intro cur s res tr out h hcur hmem
    rw [runLoop_succ] at h
    unfold runLoopIter at h
    by_cases hcle : cur ≤ 2
    · rw [if_pos hcle] at h
      by_cases hc1 : cur = 1
      · subst hc1
        obtain ⟨hres, hprobe⟩ := hcur rfl
        subst hres
        simp only [levelBody] at h
        norm_num at h
        have hps : probeStep sv (s, some SquashStatus.ok, tr ++ [CallEvent.levelEnter 1]) =
            (s, some SquashStatus.ok, tr ++ [CallEvent.levelEnter 1]) := by
          unfold probeStep
          rw [if_neg]
          exact hprobe
        rw [hps] at h
        unfold interpretStep at h
        simp only at h
        norm_num at h
        exact Or.inr (runLoop_levelEnter_self funcs buf 2 sv m 2 _ _ _ out (by norm_num) h)
      · rcases heq : probeStep sv (levelBody funcs buf 2 cur s res tr) with ⟨s1, resOpt, tr2⟩
        rw [heq] at h
        have htr2mem : CallEvent.levelEnter 1 ∈ tr2 → CallEvent.levelEnter 1 ∈ tr := by
          intro hm
          have h1 : CallEvent.levelEnter 1 ∈
              (probeStep sv (levelBody funcs buf 2 cur s res tr)).2.2 := by
            rw [heq]; exact hm
          rcases levelBody_levelEnter_tail funcs buf 2 cur s res tr 1
              (probeStep_levelEnter sv _ 1 h1) with h3 | h3
          · exact h3
          · exact absurd h3.symm hc1
        unfold interpretStep at h
        cases resOpt with
        | none => simp at h
        | some r =>
          simp only at h
          split at h
          · cases h; exact Or.inl (htr2mem hmem)
          · split at h
            · cases h; exact Or.inl (htr2mem hmem)
            · split at h
              · rename_i hrok
                subst hrok
                have hnf := probeStep_ok_not_fired heq
                rcases ih _ _ _ _ _ h
                    (fun _ => ⟨rfl, hnf⟩) hmem with h4 | h4
                · exact Or.inl (htr2mem h4)
                · exact Or.inr h4
              · cases h; exact Or.inl (htr2mem hmem)
    · rw [if_neg hcle] at h
      cases res with
      | none => simp at h
      | some r => cases h; exact Or.inl hmem

/-- The probe check does not change the stream. -/
theorem probeStep_fst (sv : Bool)
    (b : SquashStream × Option SquashStatus × List CallEvent) :
    (probeStep sv b).1 = b.1 := by
  unfold probeStep; split <;> rfl

/-- The probe check either keeps the status or overrides it with
BufferFull. -/
theorem probeStep_snd_cases (sv : Bool)
    (b : SquashStream × Option SquashStatus × List CallEvent) :
    (probeStep sv b).2.1 = b.2.1 ∨ (probeStep sv b).2.1 = some SquashStatus.bufferFull := by
  unfold probeStep
  split
  · exact Or.inr rfl
  · exact Or.inl rfl

/-- With well-behaved codec functions, the loop body does not change the
stream state. -/
theorem levelBody_state (funcs : SquashCodecFuncs) (buf : BufferImpl)
    (operation cur : Nat) (s : SquashStream) (res : Option SquashStatus)
    (tr : List CallEvent) (hwb : WellBehavedSet funcs buf) :
    ((levelBody funcs buf operation cur s res tr).1).state = s.state := by
  unfold levelBody
  repeat' split
  all_goals first
    | rfl
    | exact hwb.bufProc s
    | exact hwb.bufFin s
    | (rename_i f hf
       first
         | exact hwb.proc f hf s
         | exact hwb.flush f hf s
         | exact hwb.fin f hf s)

/-- With no flush capability, the Flush level body carries the Ok status
through unchanged. -/
theorem levelBody_flush_res (funcs : SquashCodecFuncs) (buf : BufferImpl)
    (operation : Nat) (s : SquashStream) (tr : List CallEvent)
    (hfl : funcs.flush_stream = none) :
    (levelBody funcs buf operation 1 s (some SquashStatus.ok) tr).2.1 =
      some SquashStatus.ok := by
  simp [levelBody, hfl]

/-- With no flush capability and well-behaved codec functions, the loop
never leaves the stream in the Flushing state: the only assignment of
Flushing requires a Processing status at the Flush level, and at that level
the status is either the carried Ok or the probe override. -/
theorem runLoop_not_flushing (funcs : SquashCodecFuncs) (buf : BufferImpl)
    (operation : Nat) (sv : Bool) (hfl : funcs.flush_stream = none)
    (hwb : WellBehavedSet funcs buf) :
    ∀ fuel cur s res tr out, runLoop funcs buf operation sv fuel cur s res tr = some out →
      s.state ≠ SquashStreamState.flushing →
      (cur = 1 → res = some SquashStatus.ok) →
      out.stream.state ≠ SquashStreamState.flushing := by
  intro fuel
  induction fuel with
  | zero => intro cur s res tr out h; simp [runLoop] at h
  | succ m ih =>
    intro cur s res tr out h hstate hcur
    rw [runLoop_succ] at h
    unfold runLoopIter at h
    by_cases hcle : cur ≤ operation
    · rw [if_pos hcle] at h
      rcases heq : probeStep sv (levelBody funcs buf operation cur s res tr) with ⟨s1, resOpt, tr2⟩
      rw [heq] at h
      have hs1 : s1.state = s.state := by
        have h1 : s1 = (levelBody funcs buf operation cur s res tr).1 := by
          have := probeStep_fst sv (levelBody funcs buf operation cur s res tr)
          rw [heq] at this
          exact this
        rw [h1]
        exact levelBody_state funcs buf operation cur s res tr hwb
      unfold interpretStep at h
      cases resOpt with
      | none => simp at h
      | some r =>
        simp only at h
        split at h
        · rename_i hproc
          subst hproc
          cases h
          by_cases hc1 : cur = 1
          · subst hc1
            have hres := hcur rfl
            subst hres
            have hlb := levelBody_flush_res funcs buf operation s tr hfl
            rcases probeStep_snd_cases sv (levelBody funcs buf operation 1 s
                (some SquashStatus.ok) tr) with hps | hps <;>
              rw [heq] at hps
            · rw [hlb] at hps
              simp at hps
            · simp at hps
          · unfold setStateFor
            rcases Nat.lt_or_ge cur 1 with hlt | hge
            · interval_cases cur
              simp
            · have hne0 : ¬ cur = 0 := by omega
              rw [if_neg hne0, if_neg hc1]
              by_cases hc2 : cur = 2
              · rw [if_pos hc2]; simp
              · rw [if_neg hc2]
                simpa [hs1] using hstate
        · split at h
          · cases h
            simp
          · split at h
            · exact ih _ _ _ _ _ h (by simp) (fun _ => rfl)
            · cases h
              simpa [hs1] using hstate
    · rw [if_neg hcle] at h
      cases res with
      | none => simp at h
      | some r => cases h; exact hstate

/-- probeSubst does not touch the state field. -/
theorem probeSubst_state (s : SquashStream) : (probeSubst s).state = s.state := by
  unfold probeSubst; split <;> rfl

/-- The starting level is the Flush level only for a Flushing stream. -/
theorem stateToOp_eq_one (st : SquashStreamState) (h : stateToOp st = 1) :
    st = SquashStreamState.flushing := by
  cases st <;> simp [stateToOp] at h ⊢

/-- Destructuring of a successful engine call: either one of the entry
checks returned early (stream unchanged, empty trace), or the loop ran and
the result keeps its status, trace and state. -/
theorem process_internal_cases {funcs : SquashCodecFuncs} {buf : BufferImpl}
    {stream : SquashStream} {op : Nat} {r : RunResult}
    (h : squash_stream_process_internal funcs buf stream op = some r) :
    (r.stream = stream ∧ r.trace = []) ∨
    ∃ out, runLoop funcs buf op (svOf (probeSaved stream)) (op + 2)
        (stateToOp stream.state) (probeSubst stream) none [] = some out ∧
      r.status = out.status ∧ r.trace = out.trace ∧
      r.stream.state = out.stream.state := by
  unfold squash_stream_process_internal at h
  split at h
  · cases h; exact Or.inl ⟨rfl, rfl⟩
  · split at h
    · cases h; exact Or.inl ⟨rfl, rfl⟩
    · split at h
      · cases h; exact Or.inl ⟨rfl, rfl⟩
      · obtain ⟨out, ho, h1, h2, h3⟩ := finishRun_some h
        exact Or.inr ⟨out, ho, h1, h2, h3⟩

/-- With no flush capability and well-behaved codec functions, no reachable
stream is in the Flushing state (the only path into Flushing needs a flush
entry point reporting Processing). -/
theorem reachable_not_flushing (funcs : SquashCodecFuncs) (buf : BufferImpl)
    (hfl : funcs.flush_stream = none) (hwb : WellBehavedSet funcs buf)
    (s : SquashStream) (hr : Reachable funcs buf s) :
    s.state ≠ SquashStreamState.flushing := by
  induction hr with
  | init t => simp [squash_stream_init]
  | step s' ni ai ao no op r hr' hop hcall ih =>
    rcases process_internal_cases hcall with ⟨h1, _⟩ | ⟨out, ho, _, _, h3⟩
    · rw [h1]; exact ih
    · rw [h3]
      refine runLoop_not_flushing funcs buf op _ hfl hwb _ _ _ _ _ _ ho ?_ ?_
      · rw [probeSubst_state]
        exact ih
      · intro hh
        exact False.elim (ih (stateToOp_eq_one _ hh))

/-- The concrete capability set c4funcs and adapter trivBuf preserve the
engine-owned state field. -/
theorem c4funcs_wb : WellBehavedSet c4funcs trivBuf := by
  constructor
  · intro f hf u
    have hf' : f = fun s => (s, SquashStatus.ok) := by
      simpa [c4funcs] using hf.symm
    rw [hf']
  · intro f hf
    simp [c4funcs] at hf
  · intro f hf u
    have hf' : f = fun s => (s, SquashStatus.ok) := by
      simpa [c4funcs] using hf.symm
    rw [hf']
  · intro u; rfl
  · intro u; rfl

/-- Claim C4: for every finish request on a reachable stream of a codec
with no flush entry point (and well-behaved capability functions), whenever
the escalation passes through the Flush level, the Flush level is skipped
(no flush entry point is ever invoked) and treated as success, and the
engine proceeds to the Finish level rather than failing or stopping at the
Flush level.  The Flushing entry state mentioned by the claim cannot occur
for such a codec: reachable_not_flushing shows no reachable stream of a
flush-less codec is Flushing. -/
theorem C4_flush_skipped_on_finish (funcs : SquashCodecFuncs) (buf : BufferImpl)
    (hfl : funcs.flush_stream = none) (hwb : WellBehavedSet funcs buf)
    (s : SquashStream) (hs : Reachable funcs buf s) (r : RunResult)
    (h : squash_stream_finish funcs buf s = some r)
    (hvisit : CallEvent.levelEnter 1 ∈ r.trace) :
    CallEvent.levelEnter 2 ∈ r.trace ∧
    ∀ st, CallEvent.flushCall st ∉ r.trace := by
  have hnf : s.state ≠ SquashStreamState.flushing :=
    reachable_not_flushing funcs buf hfl hwb s hs
  unfold squash_stream_finish at h
  rcases process_internal_cases h with ⟨h1, h2⟩ | ⟨out, ho, h1, h2, h3⟩
  · rw [h2] at hvisit
    simp at hvisit
  · rw [h2] at hvisit ⊢
    constructor
    · have hcur : stateToOp s.state ≠ 1 := fun hh => hnf (stateToOp_eq_one _ hh)
      rcases runLoop_flush_skip funcs buf _ hfl _ _ _ _ _ _ ho
          (fun hh => False.elim (hcur hh)) hvisit with h4 | h4
      · simp at h4
      · exact h4
    · intro st hst
      have h5 := runLoop_no_flushCall funcs buf 2 _ hfl _ _ _ _ _ _ ho st hst
      simp at h5

/-- Witness for C4: a finish call on a fresh stream with a codec having
process and finish but no flush capability passes through the Flush level
and reaches the Finish level. -/
theorem C4_flush_skipped_on_finish_witness :
    CallEvent.levelEnter 2 ∈ c4lit.trace :=
  (C4_flush_skipped_on_finish c4funcs trivBuf rfl c4funcs_wb
    (squash_stream_init SquashStreamType.compress)
    (Reachable.init SquashStreamType.compress) c4lit rfl (by decide)).1

/-- The probe check records no finishCall event. -/
theorem probeStep_no_finishCall (sv : Bool)
    (b : SquashStream × Option SquashStatus × List CallEvent) (st : SquashStatus)
    (h : CallEvent.finishCall st ∈ (probeStep sv b).2.2) :
    CallEvent.finishCall st ∈ b.2.2 := by
  unfold probeStep at h
  split at h
  · simp_all
  · exact h

/-- If the loop body records a finishCall EndOfStream event that was not
already in the accumulator, the level is Finish, the codec has a finish
entry point that returned EndOfStream, and the body normalized the status
to Ok. -/
theorem levelBody_finishCall_eos (funcs : SquashCodecFuncs) (buf : BufferImpl)
    (operation cur : Nat) (s : SquashStream) (res : Option SquashStatus)
    (tr : List CallEvent)
    (h : CallEvent.finishCall SquashStatus.endOfStream ∈
      (levelBody funcs buf operation cur s res tr).2.2)
    (hnotin : CallEvent.finishCall SquashStatus.endOfStream ∉ tr) :
    cur = 2 ∧ ∃ f, funcs.finish_stream = some f ∧
      (f s).2 = SquashStatus.endOfStream ∧
      levelBody funcs buf operation cur s res tr =
        ((f s).1, some SquashStatus.ok,
         tr ++ [CallEvent.levelEnter 2,
                CallEvent.finishCall SquashStatus.endOfStream]) := by
  unfold levelBody at h
  split at h
  · exfalso; repeat' split at h
    all_goals simp_all
  · split at h
    · exfalso; repeat' split at h
      all_goals simp_all
    · split at h
      · rename_i hc0 hc1 hc2
        subst hc2
        split at h
        · rename_i f hfin
          have hfeos : (f s).2 = SquashStatus.endOfStream := by
            rcases List.mem_append.1 h with hA | hB
            · exact absurd hA hnotin
            · simp at hB
              exact hB.symm
          refine ⟨rfl, f, hfin, hfeos, ?_⟩
          simp [levelBody, hfin, hfeos, normalizeFinish]
        · exfalso; repeat' split at h
          all_goals simp_all
      · exfalso; simp_all

/-- Claim C8 as amended: for every finish call in which the codec's finish
capability is invoked and returns EndOfStream, if the one-byte probe check
does not fire, the result is normalized to Ok: the call returns Ok (not
EndOfStream) and the stream state is set to Finished.  (The counterexample
C8_counterexample shows the probe override takes precedence when it
fires.) -/
theorem runLoop_finish_eos (funcs : SquashCodecFuncs) (buf : BufferImpl)
    (operation : Nat) (sv : Bool) :
    ∀ fuel cur s res tr out,
      runLoop funcs buf operation sv fuel cur s res tr = some out →
      CallEvent.finishCall SquashStatus.endOfStream ∈ out.trace →
      CallEvent.finishCall SquashStatus.endOfStream ∉ tr →
      CallEvent.probeOverride ∉ out.trace →
      out.status = SquashStatus.ok ∧
      out.stream.state = SquashStreamState.finished := by
  intro fuel
  induction fuel with
  | zero => intro cur s res tr out h; simp [runLoop] at h
  | succ m ih =>
    intro cur s res tr out h hmem hnotin hpo
    rw [runLoop_succ] at h
    unfold runLoopIter at h
    by_cases hcle : cur ≤ operation
    · rw [if_pos hcle] at h
      rcases heq : probeStep sv (levelBody funcs buf operation cur s res tr) with ⟨s1, resOpt, tr2⟩
      rw [heq] at h
      by_cases hm2 : CallEvent.finishCall SquashStatus.endOfStream ∈ tr2
      · have hbodymem : CallEvent.finishCall SquashStatus.endOfStream ∈
            (levelBody funcs buf operation cur s res tr).2.2 := by
          apply probeStep_no_finishCall sv _ _
          rw [heq]
          exact hm2
        obtain ⟨hc2, f, hfin, hfeos, hbody⟩ :=
          levelBody_finishCall_eos funcs buf operation cur s res tr hbodymem hnotin
        subst hc2
        rw [hbody] at heq
        unfold probeStep at heq
        split at heq
        · cases heq
          unfold interpretStep at h
          simp only at h
          norm_num at h
          cases h
          refine absurd ?_ hpo
          simp
        · cases heq
          unfold interpretStep at h
          simp only at h
          norm_num at h
          cases h
          exact ⟨rfl, rfl⟩
      · unfold interpretStep at h
        cases resOpt with
        | none => simp at h
        | some r =>
          simp only at h
          split at h
          · cases h; exact absurd hmem hm2
          · split at h
            · cases h; exact absurd hmem hm2
            · split at h
              · exact ih _ _ _ _ _ h hmem hm2 hpo
              · cases h; exact absurd hmem hm2
    · rw [if_neg hcle] at h
      cases res with
      | none => simp at h
      | some r => cases h; exact absurd hmem hnotin

/-- Claim C8 as amended, at the driver level: a finish call that invoked the
codec finish capability, saw it return EndOfStream, and did not have the
probe override fire, returns Ok with the stream Finished. -/
theorem C8_finish_eos_normalized (funcs : SquashCodecFuncs) (buf : BufferImpl)
    (s : SquashStream) (r : RunResult)
    (h : squash_stream_finish funcs buf s = some r)
    (hinv : CallEvent.finishCall SquashStatus.endOfStream ∈ r.trace)
    (hpo : CallEvent.probeOverride ∉ r.trace) :
    r.status = SquashStatus.ok ∧
    r.stream.state = SquashStreamState.finished := by
  unfold squash_stream_finish at h
  rcases process_internal_cases h with ⟨h1, h2⟩ | ⟨out, ho, h1, h2, h3⟩
  · rw [h2] at hinv
    simp at hinv
  · rw [h2] at hinv hpo
    obtain ⟨hst, hfin⟩ :=
      runLoop_finish_eos funcs buf 2 _ _ _ _ _ _ _ ho hinv (by simp) hpo
    exact ⟨h1.trans hst, h3.trans hfin⟩

/-- Counterexample to claim C8 as stated: a finish whose codec finish
writes the probe byte and returns EndOfStream is overridden to BufferFull
and the stream does not become Finished. -/
theorem C8_counterexample :
    (squash_stream_finish eosWriterCodec trivBuf c8ce).map
        (fun r => (r.status, r.stream.state, r.trace)) =
      some (SquashStatus.bufferFull, SquashStreamState.finishing,
            [CallEvent.levelEnter 2, CallEvent.finishCall SquashStatus.endOfStream,
             CallEvent.probeOverride]) ∧
    SquashStatus.bufferFull ≠ SquashStatus.ok ∧
    SquashStreamState.finishing ≠ SquashStreamState.finished :=
  ⟨rfl, by decide, by decide⟩

/-- Witness for C8: concrete finish returning EndOfStream with a one-byte
output buffer is normalized to Ok and finishes the stream. -/
theorem C8_finish_eos_normalized_witness :
    c8lit.status = SquashStatus.ok ∧
    c8lit.stream.state = SquashStreamState.finished :=
  C8_finish_eos_normalized eosCodec trivBuf c8w c8lit rfl (by decide) (by decide)

/-- Claim C3 as amended: for a codec with neither a process nor a finish
entry point (driven through the buffering adapter), a finish call from Idle
with no pending input and nonzero output capacity invokes the buffering
adapter's finish entry point, and when that call returns Ok the stream
becomes Finished and the call returns Ok. -/
theorem C3_adapter_finish (funcs : SquashCodecFuncs) (buf : BufferImpl)
    (s : SquashStream)
    (hp : funcs.process_stream = none) (hf : funcs.finish_stream = none)
    (hs : s.state = SquashStreamState.idle) (hin : s.avail_in = 0)
    (hout : s.avail_out ≠ 0)
    (hb : (buf.buffer_stream_finish s).2 = SquashStatus.ok) :
    (squash_stream_finish funcs buf s).map
        (fun r => (r.status, r.stream.state, r.trace)) =
      some (SquashStatus.ok, SquashStreamState.finished,
            [CallEvent.levelEnter 0, CallEvent.trivialOk, CallEvent.levelEnter 1,
             CallEvent.levelEnter 2, CallEvent.bufFinishCall SquashStatus.ok]) := by
  rcases hq : buf.buffer_stream_finish s with ⟨s2, st⟩
  have hst : st = SquashStatus.ok := by rw [hq] at hb; exact hb
  subst hst
  have hseq2 : ({ stream_type := s.stream_type, next_in := s.next_in,
                  avail_in := 0, total_in := s.total_in, next_out := s.next_out,
                  avail_out := s.avail_out, total_out := s.total_out,
                  state := SquashStreamState.idle } : SquashStream) = s := by
    rw [← hin, ← hs]
  unfold squash_stream_finish squash_stream_process_internal
  simp [runLoop, runLoopIter, interpretStep, levelBody, probeStep, probeSaved,
        probeSubst, svOf, restoreOut, finishRun, applyTotals, normalizeFinish,
        stateToOp, SquashStreamState.toNat, hp, hf, hs, hin, hout]
  rw [hseq2, hq]
  simp

/-- Witness for C3: a fully non-streaming codec with the trivial adapter
finishes through the adapter. -/
theorem C3_adapter_finish_witness :
    (squash_stream_finish adapterOnlyCodec trivBuf c3s).map
        (fun r => (r.status, r.stream.state, r.trace)) =
      some (SquashStatus.ok, SquashStreamState.finished,
            [CallEvent.levelEnter 0, CallEvent.trivialOk, CallEvent.levelEnter 1,
             CallEvent.levelEnter 2, CallEvent.bufFinishCall SquashStatus.ok]) :=
  C3_adapter_finish adapterOnlyCodec trivBuf c3s rfl rfl rfl rfl (by decide) rfl
